import Mathlib

/-!
Verification of the landsat-archive metadata engine (`src/landsat/utils.py`).

The Python source is shallowly embedded: each staticmethod of
`LandsatMetadata` / `LandsatArchive` becomes an executable Lean function over
`List String` / association lists, Python exceptions become the `PyError`
inductive carried by `Except`, and Python's dynamic values (int / float / str)
become the `Value` inductive.  Python machine floats are modelled exactly by
canonical decimals (plus inf / nan markers): every float literal the metadata
caster can accept denotes an exact decimal, so exact decimal arithmetic is a
faithful model of the accepted grammar, though not of IEEE rounding (which no
claim here touches).
-/

deriving instance DecidableEq for Except

namespace Landsat

/-- Python exceptions raised (or raisable) by the code under `src/landsat/utils.py`.
`parsingError`, `groupError`, `metadataFileError`, `bandMapError` and
`unsupportedSourceError` are the library's own exception classes; the rest are
Python builtins that the code can raise implicitly (`list[-1]` on an empty
list, `setattr` with a non-string name, `namedtuple` with bad field names,
a reference to an unassigned local variable, ...). -/
inductive PyError where
  | parsingError (msg : String)
  | groupError (msg : String)
  | metadataFileError (msg : String)
  | bandMapError (msg : String)
  | unsupportedSourceError (msg : String)
  | keyError (msg : String)
  | indexError
  | attributeError
  | typeError
  | valueError
  | unboundLocalError
  | osError
deriving DecidableEq, Repr

/-- Canonical exact decimal: the number `mant * 10 ^ exp`, with `mant = 0`
forcing `exp = 0` and a nonzero `mant` never divisible by 10.  Two decimal
float literals denote the same number iff their canonical forms coincide. -/
structure Dec where
  mant : Int
  exp : Int
deriving DecidableEq, Repr

/-- Model of a Python float value as produced by `float(literal)`: the finite
values reachable from decimal literals are exact decimals. -/
inductive PyFloat where
  | finite (d : Dec)
  | inf
  | ninf
  | nan
deriving DecidableEq, Repr

/-- A typed metadata value: Python int, float or str. -/
inductive Value where
  | int (n : Int)
  | float (f : PyFloat)
  | str (s : String)
deriving DecidableEq, Repr

/-! ### Python numeric string parsing (`int(s)` and `float(s)`) -/

/-- Python `s.strip()`: remove leading and trailing whitespace. -/
def pyStripWs (s : String) : String :=
  ⟨((s.data.dropWhile Char.isWhitespace).reverse.dropWhile Char.isWhitespace).reverse⟩

/-- A run of decimal digits with Python underscore rules (underscores only
between digits); returns the digits with underscores removed. -/
def parseDigitGroup (cs : List Char) : Option (List Char) :=
  let parts := cs.splitOn '_'
  if !cs.isEmpty && parts.all (fun p => !p.isEmpty && p.all Char.isDigit)
  then some parts.flatten else none

/-- Numeric value of a list of decimal digits. -/
def natOfDigits (ds : List Char) : ℕ :=
  ds.foldl (fun n c => n * 10 + (c.toNat - 48)) 0

/-- Model of Python `int(s)` on a string: optional surrounding whitespace,
optional sign, then a digit run (ASCII digits; underscores between digits). -/
def pyParseInt (s : String) : Option Int :=
  match (pyStripWs s).data with
  | '+' :: rest => (parseDigitGroup rest).map (fun ds => (natOfDigits ds : Int))
  | '-' :: rest => (parseDigitGroup rest).map (fun ds => -(natOfDigits ds : Int))
  | cs => (parseDigitGroup cs).map (fun ds => (natOfDigits ds : Int))

/-- Split a char list at the first `e` / `E` (exponent marker of a float
literal); returns the mantissa part and, when a marker was present, the
exponent part. -/
def splitExp : List Char → List Char × Option (List Char)
  | [] => ([], none)
  | c :: rest =>
    if c = 'e' || c = 'E' then ([], some rest)
    else
      let (m, e) := splitExp rest
      (c :: m, e)

/-- Mantissa of a Python float literal: `digits`, `digits.digits`,
`digits.` or `.digits`.  Returns the digit value together with the decimal
shift, so the denoted number is `value / 10 ^ shift`. -/
def parseMantissa (cs : List Char) : Option (ℕ × ℕ) :=
  match cs.splitOn '.' with
  | [ip] => (parseDigitGroup ip).map (fun ds => (natOfDigits ds, 0))
  | [ip, fp] =>
    if ip.isEmpty && fp.isEmpty then none
    else do
      let ids ← if ip.isEmpty then some [] else parseDigitGroup ip
      let fds ← if fp.isEmpty then some [] else parseDigitGroup fp
      some (natOfDigits ids * 10 ^ fds.length + natOfDigits fds, fds.length)
  | _ => none

/-- Exponent of a Python float literal: optional sign then a digit run. -/
def parseExpPart (cs : List Char) : Option Int :=
  match cs with
  | '+' :: rest => (parseDigitGroup rest).map (fun ds => (natOfDigits ds : Int))
  | '-' :: rest => (parseDigitGroup rest).map (fun ds => -(natOfDigits ds : Int))
  | rest => (parseDigitGroup rest).map (fun ds => (natOfDigits ds : Int))

/-- Strip factors of 10 from the mantissa, moving them into the exponent
(the fuel argument bounds the recursion). -/
def canonAux : ℕ → ℕ → Int → ℕ × Int
  | 0, m, e => (m, e)
  | fuel + 1, m, e =>
    if m % 10 == 0 && m != 0 then canonAux fuel (m / 10) (e + 1) else (m, e)

/-- Canonical decimal for `sgn * m * 10 ^ e`. -/
def mkDec (sgn : Int) (m : ℕ) (e : Int) : Dec :=
  if m = 0 then ⟨0, 0⟩
  else
    let p := canonAux m m e
    ⟨sgn * (p.1 : Int), p.2⟩

/-- Unsigned decimal part of a float literal, `mantissa [e exponent]`,
as a digit value and a power-of-ten exponent. -/
def parseDecimal (cs : List Char) : Option (ℕ × Int) :=
  match splitExp cs with
  | (m, none) => (parseMantissa m).map (fun p => (p.1, -(p.2 : Int)))
  | (m, some ecs) => do
    let p ← parseMantissa m
    let ex ← parseExpPart ecs
    some (p.1, ex - (p.2 : Int))

/-- Model of Python `float(s)`: optional whitespace and sign, then `inf`,
`infinity`, `nan` (case-insensitive) or a decimal literal. -/
def pyParseFloat (s : String) : Option PyFloat :=
  let (sgn, cs) :=
    match (pyStripWs s).data with
    | '+' :: rest => (1, rest)
    | '-' :: rest => ((-1 : Int), rest)
    | rest => (1, rest)
  let lower := cs.map Char.toLower
  if lower = "inf".data || lower = "infinity".data then
    some (if sgn = 1 then PyFloat.inf else PyFloat.ninf)
  else if lower = "nan".data then some PyFloat.nan
  else (parseDecimal cs).map (fun p => PyFloat.finite (mkDec sgn p.1 p.2))

/-- Python `s.strip(chr)`: remove every leading and trailing occurrence of
the character (not just one). -/
def pyStripChar (c : Char) (s : String) : String :=
  ⟨((s.data.dropWhile (· = c)).reverse.dropWhile (· = c)).reverse⟩

/-- `LandsatMetadata.cast_to_best`: try `int(value)`, then `float(value)`,
then fall back to the string with surrounding double quotes stripped. -/
def cast_to_best (value : String) : Value :=
  match pyParseInt value with
  | some n => Value.int n
  | none =>
    match pyParseFloat value with
    | some f => Value.float f
    | none => Value.str (pyStripChar '"' value)

/-! ### Line matching (the compiled regular expressions of the lexer/parser)

`LandsatMetadata.lexer` anchors `re.match` at the start of the line, so the
patterns are hand-compiled to explicit character matches:
`GROUP\s=\s(?P<start_tag>.+)` and `END_GROUP\s=\s(?P<end_tag>.+)`.
A `.` never matches a newline and `.+` is greedy, hence the captured group is
the longest newline-free stretch after the marker and must be nonempty. -/

/-- Character-level matcher for `GROUP\s=\s(?P<start_tag>.+)`. -/
def matchGroupChars : List Char → Option String
  | 'G' :: 'R' :: 'O' :: 'U' :: 'P' :: a :: '=' :: b :: rest =>
    if a.isWhitespace && b.isWhitespace then
      if (rest.takeWhile (fun c => c ≠ '\n')).isEmpty then none
      else some ⟨rest.takeWhile (fun c => c ≠ '\n')⟩
    else none
  | _ => none

/-- `re.match` of `GROUP\s=\s(?P<start_tag>.+)` against a line, returning the
captured tag. -/
def matchGroupLine (line : String) : Option String :=
  matchGroupChars line.data

/-- Character-level matcher for `END_GROUP\s=\s(?P<end_tag>.+)`. -/
def matchEndGroupChars : List Char → Option String
  | 'E' :: 'N' :: 'D' :: '_' :: 'G' :: 'R' :: 'O' :: 'U' :: 'P' :: a :: '=' :: b :: rest =>
    if a.isWhitespace && b.isWhitespace then
      if (rest.takeWhile (fun c => c ≠ '\n')).isEmpty then none
      else some ⟨rest.takeWhile (fun c => c ≠ '\n')⟩
    else none
  | _ => none

/-- `re.match` of `END_GROUP\s=\s(?P<end_tag>.+)` against a line, returning
the captured tag. -/
def matchEndGroupLine (line : String) : Option String :=
  matchEndGroupChars line.data

/-! ### Scanner and lexer (`LandsatMetadata.scanner` / `LandsatMetadata.lexer`) -/

/-- A raw token group: the accumulated lines of one GROUP/END_GROUP span. -/
abbrev RawGroup := List String

/-- `LandsatMetadata.scanner`: strip every line. -/
def scanner (content : List String) : List String := content.map pyStripWs

/-- The loop of `LandsatMetadata.lexer` made explicit.  `stack` is the
Python `groups` list of currently open groups (innermost first), `acc` the
groups yielded so far (most recent first).

Faithful corner cases of the source: `groups[-1]` on an empty stack raises
`IndexError` (both in the END_GROUP branch and when appending a plain line
with no open group); `start_group.match(groups[-1][0])` returning `None`
would raise `AttributeError` at the `.group` call; a mismatching tag raises
the library's `ParsingError`; generator exhaustion and the literal line
`END` both terminate, discarding any still-open groups. -/
def lexerGo : List String → List RawGroup → List RawGroup → Except PyError (List RawGroup)
  | [], _, acc => .ok acc.reverse
  | line :: rest, stack, acc =>
    match matchGroupLine line with
    | some _ => lexerGo rest ([line] :: stack) acc
    | none =>
      match matchEndGroupLine line with
      | some etag =>
        match stack with
        | [] => .error .indexError
        | top :: stack2 =>
          match top.head? with
          | none => .error .indexError
          | some first =>
            match matchGroupLine first with
            | none => .error .attributeError
            | some stag =>
              if stag = etag then lexerGo rest stack2 (top :: acc)
              else .error (.parsingError ("Diverging start and end tag: " ++ stag ++ " != " ++ etag))
      | none =>
        if line = "END" then .ok acc.reverse
        else
          match stack with
          | [] => .error .indexError
          | top :: stack2 => lexerGo rest ((top ++ [line]) :: stack2) acc

/-- `LandsatMetadata.lexer`, run to completion on a line sequence. -/
def lexerRun (lines : List String) : Except PyError (List RawGroup) :=
  lexerGo lines [] []

/-! ### Parser (`LandsatMetadata.parser`) -/

/-- One valid split of a line for the parser regex
`(?P<key>.+)\s=\s(?P<value>.+)`, with the key taking exactly `i`
characters. -/
def kvSplitAt (l : List Char) (i : ℕ) : Option (List Char × List Char) :=
  match l.drop i with
  | a :: '=' :: b :: rest =>
    if a.isWhitespace && b.isWhitespace && !(l.take i).isEmpty && !(l.take i).contains '\n'
        && (rest.headD '\n' != '\n') then
      some (l.take i, rest.takeWhile (fun c => c ≠ '\n'))
    else none
  | _ => none

/-- `re.match` of `(?P<key>.+)\s=\s(?P<value>.+)`: the greedy `.+` makes the
key the longest prefix admitting a valid split, so candidate key lengths are
tried in decreasing order. -/
def reKeyValue (line : String) : Option (String × String) :=
  ((List.range (line.data.length + 1)).reverse.findSome? (kvSplitAt line.data)).map
    (fun p => (⟨p.1⟩, ⟨p.2⟩))

/-- The key/value pairs the parser extracts from one raw group, in order;
lines that do not match the pattern are skipped. -/
def extractPairs : List String → List (String × Value)
  | [] => []
  | l :: ls =>
    match reKeyValue l with
    | some (k, v) => (k, cast_to_best v) :: extractPairs ls
    | none => extractPairs ls

/-- A parsed metadata record: the field/value pairs of one `namedtuple`. -/
abbrev Record := List (String × Value)

/-- The Python keywords rejected as `namedtuple` field names. -/
def pyKeywords : List String :=
  ["False", "None", "True", "and", "as", "assert", "async", "await", "break",
   "class", "continue", "def", "del", "elif", "else", "except", "finally",
   "for", "from", "global", "if", "import", "in", "is", "lambda", "nonlocal",
   "not", "or", "pass", "raise", "return", "try", "while", "with", "yield"]

/-- A character allowed after the first position of a Python identifier
(ASCII model). -/
def isIdentChar (c : Char) : Bool := c.isAlpha || c.isDigit || c = '_'

/-- Python `str.isidentifier` (ASCII model). -/
def pyIsIdentifier (s : String) : Bool :=
  match s.data with
  | [] => false
  | c :: cs => (c.isAlpha || c = '_') && cs.all isIdentChar

/-- A name `namedtuple` accepts as a field: an identifier, not a keyword,
not starting with an underscore. -/
def validFieldName (s : String) : Bool :=
  pyIsIdentifier s && !pyKeywords.contains s && !(s.data.headD ' ' = '_')

/-- All field names valid and pairwise distinct. -/
def validFieldsB : List String → Bool
  | [] => true
  | k :: ks => validFieldName k && !ks.contains k && validFieldsB ks

/-- `namedtuple('Metadata', keys)(*values)`: succeeds with the record, or
raises `ValueError` on invalid or duplicate field names. -/
def mkRecord (pairs : Record) : Except PyError Record :=
  if validFieldsB (pairs.map Prod.fst) then .ok pairs else .error .valueError

/-- The loop of `LandsatMetadata.parser`: a record is kept only when the
group yielded more than one key/value pair; after the loop, zero records is
a `ParsingError`. -/
def parserGo : List RawGroup → List Record → Except PyError (List Record)
  | [], acc => if acc.isEmpty then .error (.parsingError "Empty metadata file") else .ok acc.reverse
  | g :: gs, acc =>
    let pairs := extractPairs g
    if 1 < pairs.length then
      match mkRecord pairs with
      | .ok r => parserGo gs (r :: acc)
      | .error e => .error e
    else parserGo gs acc

/-- `LandsatMetadata.parser`, run on a full group list. -/
def parserRun (gs : List RawGroup) : Except PyError (List Record) :=
  parserGo gs []

/-- `LandsatMetadata.read` without the file handle: scanner, lexer, parser
composed over the file content. -/
def readPipeline (content : List String) : Except PyError (List Record) :=
  (lexerRun (scanner content)).bind parserRun

/-! ### Metadata store (`LandsatMetadata.parse` / `get` / `iter_group`)

`parse` attaches each record to the metadata object with
`setattr(self, item.GROUP, item)`, and `get` reads it back with
`getattr(self, group.upper())`.  The instance dictionary is modelled as an
association list from attribute name to record; Python attribute lookup falls
back to the class dictionary, whose only all-uppercase entry is the `_OPENER`
testing hook (every method name is lowercase, so an uppercased group name can
never collide with one). -/

/-- Python `str.upper` (ASCII model). -/
def pyUpper (s : String) : String := ⟨s.data.map Char.toUpper⟩

/-- An attribute value reachable through `getattr` on the metadata object
with an all-uppercase name: a parsed record, or the `_OPENER` class
attribute. -/
inductive StoreAttr where
  | record (r : Record)
  | openerHook
deriving DecidableEq, Repr

/-- The instance dictionary built by `parse`. -/
abbrev Store := List (String × Record)

/-- `item.GROUP`: the value of the `GROUP` field of a record, absent when the
namedtuple has no such field. -/
def recordGROUP (r : Record) : Option Value :=
  (r.find? (fun p => decide (p.1 = "GROUP"))).map Prod.snd

/-- `setattr(self, name, r)`: overwrite an existing attribute in place,
otherwise append (Python dicts keep insertion order). -/
def setattrStore (st : Store) (name : String) (r : Record) : Store :=
  if st.any (fun p => decide (p.1 = name)) then
    st.map (fun p => if p.1 = name then (name, r) else p)
  else st ++ [(name, r)]

/-- The `parse` loop over the parsed records: `setattr(self, item.GROUP, item)`.
`item.GROUP` on a record without a GROUP field raises `AttributeError`;
`setattr` with a non-string name raises `TypeError`. -/
def buildStore (records : List Record) : Except PyError Store :=
  records.foldlM
    (fun st r =>
      match recordGROUP r with
      | none => .error .attributeError
      | some (Value.str s) => .ok (setattrStore st s r)
      | some _ => .error .typeError)
    []

/-- `getattr(self, nameU)` for an all-uppercase attribute name: the instance
dictionary first, then the class-level `_OPENER` hook. -/
def storeGetattr (st : Store) (nameU : String) : Option StoreAttr :=
  match st.find? (fun p => decide (p.1 = nameU)) with
  | some p => some (.record p.2)
  | none => if nameU = "_OPENER" then some .openerHook else none

/-- `LandsatMetadata.get(group)` (no key): case-insensitive group lookup,
`None` on a miss. -/
def metaGet (st : Store) (group : String) : Option StoreAttr :=
  storeGetattr st (pyUpper group)

/-- `LandsatMetadata.get(group, value)`: field lookup on the found record via
`getattr(attr, value.upper())`; any `AttributeError` yields the default
`None`.  (The namedtuple's own methods are lowercase, so an uppercased key
only ever hits a field.) -/
def metaGetField (st : Store) (group key : String) : Option Value :=
  match metaGet st group with
  | some (.record r) => (r.find? (fun p => decide (p.1 = pyUpper key))).map Prod.snd
  | some .openerHook => none
  | none => none

/-- `LandsatMetadata.iter_group`, materialised: `GroupError` when `get`
returned `None`; otherwise `attr._asdict().items()`, which for a namedtuple
is every field including `GROUP`.  (If the name reached the `_OPENER` class
attribute, the `_asdict` call raises `AttributeError` instead.) -/
def iter_group (st : Store) (group : String) : Except PyError (List (String × Value)) :=
  match metaGet st group with
  | none => .error (.groupError ("Not possible to iterate over non existing group: " ++ group))
  | some .openerHook => .error .attributeError
  | some (.record r) => .ok r

/-! ### Band dispatch (`LandsatArchive.dispatch_mapping`, `BAND_MAP`) -/

/-- Zero-padded digit string of length `k`. -/
def padZeros (s : String) (k : ℕ) : String :=
  ⟨List.replicate (k - s.data.length) '0' ++ s.data⟩

/-- Python `str(float)` on the exact-decimal model (plain decimal notation;
the source never hits the magnitudes where Python switches to scientific
notation for values this code formats). -/
def pyFloatStr : PyFloat → String
  | .inf => "inf"
  | .ninf => "-inf"
  | .nan => "nan"
  | .finite d =>
    let sign := if d.mant < 0 then "-" else ""
    let m := d.mant.natAbs
    match d.exp with
    | .ofNat k => sign ++ toString (m * 10 ^ k) ++ ".0"
    | .negSucc k0 =>
      sign ++ toString (m / 10 ^ (k0 + 1)) ++ "."
        ++ padZeros (toString (m % 10 ^ (k0 + 1))) (k0 + 1)

/-- Python `str(value)` as used by `'%s_%s' % (spacecraft, sensor)`. -/
def pyStrOfValue : Value → String
  | Value.int n => toString n
  | Value.float f => pyFloatStr f
  | Value.str s => s

/-- Python `'words with spaces'.split()`. -/
def pyWords (s : String) : List String :=
  ((s.data.splitOn ' ').filter (fun p => !p.isEmpty)).map (fun p => (⟨p⟩ : String))

/-- The characters of a string as one-character strings: what `zip` iterates
when handed a plain `str` instead of a word list. -/
def pyChars (s : String) : List String :=
  s.data.map (fun c => (⟨[c]⟩ : String))

/-- The module-level `BAND_MAP` table.  The `LANDSAT_8_OLI_TIRS` entry is
reproduced exactly as written in the source: its second `zip` argument lacks
the `.split()` call, so the twelve aliases are zipped with the first twelve
characters of the code string. -/
def BAND_MAP : List (String × List (String × String)) := [
  ("LANDSAT_1_MSS", List.zip (pyWords "green red nir1 nir2") (pyWords "4 5 6 7")),
  ("LANDSAT_2_MSS", List.zip (pyWords "green red nir1 nir2") (pyWords "4 5 6 7")),
  ("LANDSAT_3_MSS", List.zip (pyWords "green red nir1 nir2") (pyWords "4 5 6 7")),
  ("LANDSAT_4_MSS", List.zip (pyWords "green red nir1 nir2") (pyWords "1 2 3 4")),
  ("LANDSAT_5_MSS", List.zip (pyWords "green red nir1 nir2") (pyWords "1 2 3 4")),
  ("LANDSAT_4_TM",
    List.zip (pyWords "blue green red nir swir1 tirs swir2") (pyWords "1 2 3 4 5 6 7")),
  ("LANDSAT_5_TM",
    List.zip (pyWords "blue green red nir swir1 tirs swir2") (pyWords "1 2 3 4 5 6 7")),
  ("LANDSAT_7_ETM",
    List.zip (pyWords "blue green red nir swir1 tirs_low tirs_high swir2 panchromatic bq")
      (pyWords "1 2 3 4 5 6_VCID_1 6_VCID_2 7 8 QUALITY")),
  ("LANDSAT_8_OLI_TIRS",
    List.zip
      (pyWords "costal blue green red nir swir1 swir2 panchromatic cirrus tirs1 tirs2 bq")
      (pyChars "1 2 3 4 5 6 7 8 9 10 11 QUALITY"))]

/-- `LandsatArchive.dispatch_mapping`: read `SPACECRAFT_ID` and `SENSOR_ID`
from `PRODUCT_METADATA` (either `None` is a `MetadataFileError`), then look
up `'%s_%s'` in the band mapping (`None` is a `BandMapError`). -/
def dispatch_mapping (st : Store) (bandMapping : List (String × List (String × String))) :
    Except PyError (List (String × String)) :=
  match metaGetField st "PRODUCT_METADATA" "SPACECRAFT_ID",
      metaGetField st "PRODUCT_METADATA" "SENSOR_ID" with
  | some spacecraft, some sensor =>
    let key := pyStrOfValue spacecraft ++ "_" ++ pyStrOfValue sensor
    match bandMapping.find? (fun p => decide (p.1 = key)) with
    | some p => .ok p.2
    | none => .error (.bandMapError ("No band mapping found for " ++ key))
  | _, _ => .error (.metadataFileError "Metadata does not contain a spacecraft or sensor attribute")

/-! ### Metadata file sniffing (`LandsatArchive.metadata_sniffer`) -/

/-- `os.path.basename` (posix): the part after the last slash. -/
def basename (p : String) : String :=
  ⟨(p.data.reverse.takeWhile (fun c => c ≠ '/')).reverse⟩

/-- Python `repr` of a list of strings, for the sniffer's error message. -/
def pyReprStrList (names : List String) : String :=
  "[" ++ String.intercalate ", " (names.map (fun s => "'" ++ s ++ "'")) ++ "]"

/-- `LandsatArchive.metadata_sniffer`: the template regex is modelled as the
boolean matcher obtained from compiling it; each name is reduced to its base
name before matching, and the first match is returned.  No match raises
`MetadataFileError`. -/
def metadata_sniffer (names : List String) (template : String → Bool) :
    Except PyError String :=
  match names.find? (fun n => template (basename n)) with
  | some n => .ok (basename n)
  | none => .error (.metadataFileError ("Missing Landsat metadata file in " ++ pyReprStrList names))

/-- Suffix test for the default template `r'.*_?MTL.txt'` after the `.*`
prefix: optional underscore, then `MTL`, one non-newline character, `txt`. -/
def defaultTplTail (l : List Char) : Bool :=
  match l with
  | 'M' :: 'T' :: 'L' :: c :: 't' :: 'x' :: 't' :: _ => c ≠ '\n'
  | _ => false

/-- Hand-compiled `re.match` of the default metadata template
`r'.*_?MTL.txt'` (no IGNORECASE flag is passed when compiling). -/
def matchDefaultTpl (name : String) : Bool :=
  let l := name.data
  (List.range (l.length + 1)).any (fun i =>
    !(l.take i).contains '\n' &&
      (defaultTplTail (l.drop i) ||
        (match l.drop i with
         | '_' :: r => defaultTplTail r
         | _ => false)))

/-- Suffix test for the template `r'.+_mtl.txt'` after the `.+` prefix:
`_mtl`, one non-newline character, `txt`. -/
def mtlLowerTplTail (l : List Char) : Bool :=
  match l with
  | '_' :: 'm' :: 't' :: 'l' :: c :: 't' :: 'x' :: 't' :: _ => c ≠ '\n'
  | _ => false

/-- Hand-compiled `re.match` of the caller-supplied template
`r'.+_mtl.txt'` used by the repository's sniffer test. -/
def matchMtlLowerTpl (name : String) : Bool :=
  let l := name.data
  (List.range (l.length + 1)).any (fun i =>
    decide (1 ≤ i) && !(l.take i).contains '\n' && mtlLowerTplTail (l.drop i))

/-! ### The archive object (`LandsatArchive`) -/

/-- `LandsatArchive` state after `__init__`: source directory, parsed
metadata store, optional alias, selected band mapping, and the `_bands`
index (initialised to the empty dict -- `_load` is never invoked by any
constructor path in the source). -/
structure LandsatArchive where
  src : String
  store : Store
  aliasName : Option String
  mapping : List (String × String)
  bands : List (String × Value)
deriving DecidableEq, Repr

/-- Update-or-append for the `_bands` dict. -/
def dictSetV (bs : List (String × Value)) (k : String) (v : Value) : List (String × Value) :=
  if bs.any (fun p => decide (p.1 = k)) then
    bs.map (fun p => if p.1 = k then (k, v) else p)
  else bs ++ [(k, v)]

/-- `re.match` of `FILE_NAME_BAND_(?P<key>(?:\d{1,2}|[A-Za-z]+).*)` with
`re.I` against a metadata key: case-insensitive literal prefix, then the
capture, which must start with a digit or ASCII letter and extends to the
end of the key (stopping at a newline). -/
def bandKeyMatch (k : String) : Option String :=
  let pre := "FILE_NAME_BAND_".data
  let l := k.data
  if decide ((l.take pre.length).map Char.toUpper = pre) then
    match l.drop pre.length with
    | c :: rest =>
      if c.isDigit || c.isAlpha then some ⟨(c :: rest).takeWhile (fun x => x ≠ '\n')⟩
      else none
    | [] => none
  else none

/-- `LandsatArchive._load`: scan `PRODUCT_METADATA` for `FILE_NAME_BAND_*`
keys and build the `_bands` index.  Defined faithfully, although no
constructor path of the source ever calls it. -/
def LandsatArchive.loadBands (a : LandsatArchive) : Except PyError LandsatArchive :=
  (iter_group a.store "PRODUCT_METADATA").map
    (fun pairs =>
      { a with
        bands := pairs.foldl
          (fun bs p =>
            match bandKeyMatch p.1 with
            | some code => dictSetV bs code p.2
            | none => bs)
          a.bands })

/-- `LandsatArchive.__getitem__`: check `_bands` by the identifier, else
translate through `_mapping` and index `_bands` again (a plain dict
`KeyError` when the translated code is absent), else raise the
`'%s not found'` `KeyError`.  The result is the band-file value handed to
the external raster opener. -/
def LandsatArchive.getitem (a : LandsatArchive) (item : String) : Except PyError Value :=
  match a.bands.find? (fun p => decide (p.1 = item)) with
  | some p => .ok p.2
  | none =>
    match a.mapping.find? (fun p => decide (p.1 = item)) with
    | some p =>
      match a.bands.find? (fun q => decide (q.1 = p.2)) with
      | some q => .ok q.2
      | none => .error (.keyError p.2)
    | none => .error (.keyError (item ++ " not found"))

/-- `LandsatArchive.directory_read`: sniff the metadata file from the
directory listing, parse it (the content of the sniffed file is supplied by
`fs`), dispatch the band mapping, and construct the archive.  `_bands`
starts empty because `__init__` sets `self._bands = {}` and nothing calls
`_load`. -/
def directory_read (dir : String) (listing : List String) (fs : String → List String)
    (template : String → Bool) (aliasName : Option String)
    (bandMapping : List (String × List (String × String))) :
    Except PyError LandsatArchive := do
  let metaFile ← metadata_sniffer listing template
  let records ← readPipeline (fs metaFile)
  let store ← buildStore records
  let mapping ← dispatch_mapping store bandMapping
  .ok ⟨dir, store, aliasName, mapping, []⟩

/-! ### The archive opener (`LandsatArchive.archive_opener` / `archive_read`)

`archive_opener` is an `@contextmanager` generator whose body is
`try: ... yield opener ... except: pass finally: opener.close()`.
Under the generator protocol this means: an exception raised by the `with`
body is thrown into the generator at the yield point, caught by the bare
`except`, and thereby *suppressed* -- the `with` statement completes
normally; and when neither container test matches, the raised
`UnsupportedSourceError` is also caught, after which the `finally` block
references the never-assigned `opener` local and raises
`UnboundLocalError`. -/

/-- Container classification of `is_tarfile` / `is_zipfile`. -/
inductive ArchKind where
  | tarK
  | zipK
  | neitherK
deriving DecidableEq, Repr

/-- Outcome of running a `with archive_opener(...)` block: `result` is
`ok (some a)` when the body succeeded, `ok none` when the body raised and
the bare `except` suppressed it, `error e` when the opener itself raised;
`opened`/`closed` track the archive handle. -/
structure OpenerRun (α : Type) where
  result : Except PyError (Option α)
  opened : Bool
  closed : Bool
deriving Repr

/-- `with LandsatArchive.archive_opener(archive) as src: body`. -/
def archive_opener (kind : ArchKind) (body : Except PyError α) : OpenerRun α :=
  match kind with
  | .tarK | .zipK =>
    match body with
    | .ok a => ⟨.ok (some a), true, true⟩
    | .error _ => ⟨.ok none, true, true⟩
  | .neitherK => ⟨.error .unboundLocalError, false, false⟩

/-- `LandsatArchive.archive_read` up to the point where the located metadata
file name is used: the `with` block sniffs the entry list and extracts all
entries; afterwards `ex / meta_file` reads the `meta_file` local, which is
unbound (`UnboundLocalError`) whenever the sniffer raised inside the
suppressed block.  Returns the located name plus the handle bookkeeping. -/
def archive_read_locate (kind : ArchKind) (entries : List String)
    (template : String → Bool) (extractOk : Bool) :
    Except PyError String × Bool × Bool :=
  let sniffRes := metadata_sniffer entries template
  let body : Except PyError String :=
    sniffRes.bind (fun mf => if extractOk then .ok mf else .error .osError)
  let run := archive_opener kind body
  (match run.result with
   | .error e => .error e
   | .ok (some mf) => .ok mf
   | .ok none =>
     match sniffRes with
     | .ok mf => .ok mf
     | .error _ => .error .unboundLocalError,
   run.opened, run.closed)

/-! ### Well-formed inputs for the lexer

A well-formed metadata body is a forest of groups: each group is a
`GROUP = tag` line, a body of plain lines and nested groups, and a matching
`END_GROUP = tag` line.  `Doc`/`DocList` generate exactly these inputs, and
`emittedListD` states the groups the lexer must yield, in closing order. -/

mutual
inductive Doc where
  | content (line : String) : Doc
  | group (tag : String) (body : DocList) : Doc
inductive DocList where
  | nil : DocList
  | cons (d : Doc) (ds : DocList) : DocList
end

/-- The `GROUP = tag` opening line. -/
def groupLine (t : String) : String := "GROUP = " ++ t

/-- The `END_GROUP = tag` closing line. -/
def endLine (t : String) : String := "END_GROUP = " ++ t

mutual
def renderDoc : Doc → List String
  | .content l => [l]
  | .group t body => groupLine t :: (renderList body ++ [endLine t])
def renderList : DocList → List String
  | .nil => []
  | .cons d ds => renderDoc d ++ renderList ds
end

mutual
def emittedDoc : Doc → List RawGroup
  | .content _ => []
  | .group t body => emittedListD body ++ [groupLine t :: directLines body]
def emittedListD : DocList → List RawGroup
  | .nil => []
  | .cons d ds => emittedDoc d ++ emittedListD ds
def directLines : DocList → List String
  | .nil => []
  | .cons (.content l) ds => l :: directLines ds
  | .cons (.group _ _) ds => directLines ds
end

/-- The plain lines a single item contributes to its enclosing group. -/
def dlinesDoc : Doc → List String
  | .content l => [l]
  | .group _ _ => []

/-- A tag the rendering round-trips: nonempty and newline-free. -/
def validTagB (t : String) : Bool :=
  !t.data.isEmpty && !t.data.contains '\n'

/-- A content line the lexer treats as plain: no marker match and not the
`END` sentinel. -/
def plainLineB (l : String) : Bool :=
  (matchGroupLine l).isNone && (matchEndGroupLine l).isNone && l ≠ "END"

mutual
def WFDocB : Doc → Bool
  | .content l => plainLineB l
  | .group t body => validTagB t && WFListB body
def WFListB : DocList → Bool
  | .nil => true
  | .cons d ds => WFDocB d && WFListB ds
end

/-- Every top-level item is a group (a top-level plain line is the missing
open-group situation handled separately). -/
def topGroupsB : DocList → Bool
  | .nil => true
  | .cons (.content _) _ => false
  | .cons (.group _ _) ds => topGroupsB ds

/-- Whether a pipeline outcome is a failure with the library's
`ParsingError`. -/
def isParsingErrorResult {α : Type} : Except PyError α → Bool
  | .error (.parsingError _) => true
  | _ => false

/-- The records the parser keeps: one per group with more than one extracted
key/value pair, in group order. -/
def qualifying : List RawGroup → List Record
  | [] => []
  | g :: gs =>
    if 1 < (extractPairs g).length then extractPairs g :: qualifying gs else qualifying gs

/-- A raw group whose first line matches the GROUP marker: the invariant
every group pushed by the lexer satisfies. -/
def headGroup (g : RawGroup) : Prop :=
  ∃ (h : String) (rest : List String) (t : String),
    g = h :: rest ∧ matchGroupLine h = some t

/-- Content of the end-to-end scenario's metadata file `scene_MTL.txt`: a
`PRODUCT_METADATA` group identifying a LANDSAT_8 / OLI_TIRS sensor and
listing `FILE_NAME_BAND_4`. -/
def mtlScene : List String :=
  ["GROUP = PRODUCT_METADATA",
   "SPACECRAFT_ID = \"LANDSAT_8\"",
   "SENSOR_ID = \"OLI_TIRS\"",
   "FILE_NAME_BAND_4 = \"scene_B4.TIF\"",
   "END_GROUP = PRODUCT_METADATA",
   "END"]

/-- The archive of the end-to-end scenario, built through the resolution
pipeline from a directory listing containing only `scene_MTL.txt`. -/
def sceneArchive : Except PyError LandsatArchive :=
  directory_read "scene" ["scene_MTL.txt"] (fun _ => mtlScene) matchDefaultTpl none BAND_MAP

/-! ### Basic string and marker lemmas -/

theorem string_mk_data (s : String) : (⟨s.data⟩ : String) = s := by
  cases s
  rfl

theorem data_append (s t : String) : (s ++ t).data = s.data ++ t.data := by
  cases s
  cases t
  rfl

theorem groupLine_data (t : String) :
    (groupLine t).data = 'G' :: 'R' :: 'O' :: 'U' :: 'P' :: ' ' :: '=' :: ' ' :: t.data := by
  show ("GROUP = " ++ t).data = _
  rw [data_append]
  rfl

theorem endLine_data (t : String) :
    (endLine t).data
      = 'E' :: 'N' :: 'D' :: '_' :: 'G' :: 'R' :: 'O' :: 'U' :: 'P' :: ' ' :: '=' :: ' '
        :: t.data := by
  show ("END_GROUP = " ++ t).data = _
  rw [data_append]
  rfl

theorem takeWhile_ne_self (l : List Char) (h : l.contains '\n' = false) :
    l.takeWhile (fun c => c ≠ '\n') = l := by
  induction l with
  | nil => rfl
  | cons c cs ih =>
    simp only [List.contains_cons, Bool.or_eq_false_iff, beq_eq_false_iff_ne, ne_eq] at h
    simp only [List.takeWhile_cons, decide_eq_true_eq, ne_eq]
    rw [if_pos (fun hc => h.1 hc.symm)]
    exact congrArg (c :: ·) (ih h.2)

theorem validTag_split (t : String) (h : validTagB t = true) :
    t.data.isEmpty = false ∧ t.data.contains '\n' = false := by
  simpa [validTagB, Bool.and_eq_true] using h

theorem matchGroup_groupLine (t : String) (h : validTagB t = true) :
    matchGroupLine (groupLine t) = some t := by
  obtain ⟨h1, h2⟩ := validTag_split t h
  show matchGroupChars (groupLine t).data = some t
  rw [groupLine_data]
  show (if (' '.isWhitespace && ' '.isWhitespace) = true then
      if (t.data.takeWhile (fun c => c ≠ '\n')).isEmpty then none
      else some (⟨t.data.takeWhile (fun c => c ≠ '\n')⟩ : String)
    else none) = some t
  rw [if_pos (by decide), takeWhile_ne_self t.data h2, if_neg (by simp [h1]), string_mk_data]

theorem matchEnd_endLine (t : String) (h : validTagB t = true) :
    matchEndGroupLine (endLine t) = some t := by
  obtain ⟨h1, h2⟩ := validTag_split t h
  show matchEndGroupChars (endLine t).data = some t
  rw [endLine_data]
  show (if (' '.isWhitespace && ' '.isWhitespace) = true then
      if (t.data.takeWhile (fun c => c ≠ '\n')).isEmpty then none
      else some (⟨t.data.takeWhile (fun c => c ≠ '\n')⟩ : String)
    else none) = some t
  rw [if_pos (by decide), takeWhile_ne_self t.data h2, if_neg (by simp [h1]), string_mk_data]

theorem matchGroup_endLine (t : String) : matchGroupLine (endLine t) = none := by
  show matchGroupChars (endLine t).data = none
  rw [endLine_data]
  rfl

theorem matchEnd_groupLine (t : String) : matchEndGroupLine (groupLine t) = none := by
  show matchEndGroupChars (groupLine t).data = none
  rw [groupLine_data]
  rfl

theorem groupLine_ne_END (t : String) : groupLine t ≠ "END" := by
  intro h
  have h2 := congrArg String.data h
  rw [groupLine_data, show "END".data = ['E', 'N', 'D'] from rfl] at h2
  have h3 := congrArg List.length h2
  simp only [List.length_cons, List.length_nil] at h3
  omega

theorem endLine_ne_END (t : String) : endLine t ≠ "END" := by
  intro h
  have h2 := congrArg String.data h
  rw [endLine_data, show "END".data = ['E', 'N', 'D'] from rfl] at h2
  have h3 := congrArg List.length h2
  simp only [List.length_cons, List.length_nil] at h3
  omega

theorem plainLine_split (l : String) (h : plainLineB l = true) :
    matchGroupLine l = none ∧ matchEndGroupLine l = none ∧ l ≠ "END" := by
  have h2 : (matchGroupLine l = none ∧ matchEndGroupLine l = none) ∧ ¬l = "END" := by
    simpa [plainLineB, Bool.and_eq_true, Option.isNone_iff_eq_none] using h
  exact ⟨h2.1.1, h2.1.2, h2.2⟩

/-! ### Single steps of the lexer loop -/

theorem lexerGo_group (t : String) (ht : validTagB t = true)
    (rest : List String) (stack acc : List RawGroup) :
    lexerGo (groupLine t :: rest) stack acc = lexerGo rest ([groupLine t] :: stack) acc := by
  simp only [lexerGo, matchGroup_groupLine t ht]

theorem lexerGo_pop (t : String) (ht : validTagB t = true)
    (rest : List String) (dl : List String) (S acc : List RawGroup) :
    lexerGo (endLine t :: rest) ((groupLine t :: dl) :: S) acc
      = lexerGo rest S ((groupLine t :: dl) :: acc) := by
  simp only [lexerGo, matchGroup_endLine, matchEnd_endLine t ht, List.head?_cons,
    matchGroup_groupLine t ht]
  simp only [if_true]

theorem lexerGo_mismatch (a b : String) (ha : validTagB a = true) (hb : validTagB b = true)
    (hne : a ≠ b) (rest : List String) (dl : List String) (S acc : List RawGroup) :
    lexerGo (endLine b :: rest) ((groupLine a :: dl) :: S) acc
      = .error (.parsingError ("Diverging start and end tag: " ++ a ++ " != " ++ b)) := by
  simp only [lexerGo, matchGroup_endLine, matchEnd_endLine b hb, List.head?_cons,
    matchGroup_groupLine a ha, if_neg hne]

theorem lexerGo_plain (l : String) (hl : plainLineB l = true)
    (rest : List String) (top : RawGroup) (S acc : List RawGroup) :
    lexerGo (l :: rest) (top :: S) acc = lexerGo rest ((top ++ [l]) :: S) acc := by
  obtain ⟨hg, he, hE⟩ := plainLine_split l hl
  simp only [lexerGo, hg, he, if_neg hE]

theorem lexerGo_plain_empty (l : String) (hl : plainLineB l = true)
    (rest : List String) (acc : List RawGroup) :
    lexerGo (l :: rest) [] acc = .error .indexError := by
  obtain ⟨hg, he, hE⟩ := plainLine_split l hl
  simp only [lexerGo, hg, he, if_neg hE]

theorem lexerGo_END (rest : List String) (stack acc : List RawGroup) :
    lexerGo ("END" :: rest) stack acc = .ok acc.reverse := by
  simp only [lexerGo, show matchGroupLine "END" = none from rfl,
    show matchEndGroupLine "END" = none from rfl]
  simp only [if_true]

/-! ### The lexer on rendered well-formed documents -/

mutual
theorem lexerGo_doc (d : Doc) (hd : WFDocB d = true) :
    ∀ (rest : List String) (top : RawGroup) (S acc : List RawGroup),
    lexerGo (renderDoc d ++ rest) (top :: S) acc
      = lexerGo rest ((top ++ dlinesDoc d) :: S) ((emittedDoc d).reverse ++ acc) := by
  match d with
  | .content l =>
    intro rest top S acc
    have hl : plainLineB l = true := hd
    simp only [renderDoc, dlinesDoc, emittedDoc, List.reverse_nil, List.nil_append,
      List.singleton_append]
    exact lexerGo_plain l hl rest top S acc
  | .group t body =>
    intro rest top S acc
    have ht : validTagB t = true := by
      have h2 : (validTagB t && WFListB body) = true := hd
      exact (Bool.and_eq_true _ _ |>.mp h2).1
    have hb : WFListB body = true := by
      have h2 : (validTagB t && WFListB body) = true := hd
      exact (Bool.and_eq_true _ _ |>.mp h2).2
    have hrender : renderDoc (.group t body) ++ rest
        = groupLine t :: (renderList body ++ (endLine t :: rest)) := by
      simp [renderDoc, List.append_assoc]
    rw [hrender, lexerGo_group t ht, lexerGo_list body hb]
    have hsingle : ([groupLine t] ++ directLines body) = groupLine t :: directLines body := by
      simp
    rw [hsingle, lexerGo_pop t ht]
    simp only [dlinesDoc, emittedDoc, List.append_nil, List.reverse_append,
      List.reverse_cons, List.reverse_nil, List.nil_append, List.singleton_append,
      List.append_assoc, List.cons_append]

theorem lexerGo_list (ds : DocList) (hd : WFListB ds = true) :
    ∀ (rest : List String) (top : RawGroup) (S acc : List RawGroup),
    lexerGo (renderList ds ++ rest) (top :: S) acc
      = lexerGo rest ((top ++ directLines ds) :: S) ((emittedListD ds).reverse ++ acc) := by
  match ds with
  | .nil =>
    intro rest top S acc
    simp [renderList, directLines, emittedListD]
  | .cons d ds2 =>
    intro rest top S acc
    have h1 : WFDocB d = true := by
      have h2 : (WFDocB d && WFListB ds2) = true := hd
      exact (Bool.and_eq_true _ _ |>.mp h2).1
    have h2 : WFListB ds2 = true := by
      have h3 : (WFDocB d && WFListB ds2) = true := hd
      exact (Bool.and_eq_true _ _ |>.mp h3).2
    have hsplit : renderList (.cons d ds2) ++ rest = renderDoc d ++ (renderList ds2 ++ rest) := by
      simp [renderList, List.append_assoc]
    rw [hsplit, lexerGo_doc d h1, lexerGo_list ds2 h2]
    have hdl : directLines (DocList.cons d ds2) = dlinesDoc d ++ directLines ds2 := by
      cases d <;> simp [directLines, dlinesDoc]
    rw [hdl]
    simp [emittedListD, List.reverse_append, List.append_assoc]
end

/-- Processing the rendering of a balanced top-level forest leaves the stack
unchanged and appends the emitted groups, for any surrounding state. -/
theorem lexerGo_top (ds : DocList) (h1 : WFListB ds = true) (h2 : topGroupsB ds = true) :
    ∀ (rest : List String) (S acc : List RawGroup),
    lexerGo (renderList ds ++ rest) S acc = lexerGo rest S ((emittedListD ds).reverse ++ acc) := by
  match ds, h2 with
  | .nil, _ =>
    intro rest S acc
    simp [renderList, emittedListD]
  | .cons (.group t body) ds2, h2 =>
    intro rest S acc
    have hwf : (WFDocB (.group t body) && WFListB ds2) = true := h1
    have hdoc := (Bool.and_eq_true _ _ |>.mp hwf).1
    have hds2 := (Bool.and_eq_true _ _ |>.mp hwf).2
    have ht : validTagB t = true := by
      have h3 : (validTagB t && WFListB body) = true := hdoc
      exact (Bool.and_eq_true _ _ |>.mp h3).1
    have hbody : WFListB body = true := by
      have h3 : (validTagB t && WFListB body) = true := hdoc
      exact (Bool.and_eq_true _ _ |>.mp h3).2
    have htop : topGroupsB ds2 = true := h2
    have hsplit : renderList (.cons (.group t body) ds2) ++ rest
        = groupLine t :: (renderList body ++ (endLine t :: (renderList ds2 ++ rest))) := by
      simp [renderList, renderDoc, List.append_assoc]
    rw [hsplit, lexerGo_group t ht, lexerGo_list body hbody]
    have hsingle : ([groupLine t] ++ directLines body) = groupLine t :: directLines body := by
      simp
    rw [hsingle, lexerGo_pop t ht, lexerGo_top ds2 hds2 htop]
    simp [emittedListD, emittedDoc, List.reverse_append, List.append_assoc]

/-- A run of bare `GROUP` lines pushes one singleton group per line. -/
theorem lexerGo_opens (ts : List String) (h : ∀ t ∈ ts, validTagB t = true) :
    ∀ (rest : List String) (S acc : List RawGroup),
    lexerGo (ts.map groupLine ++ rest) S acc
      = lexerGo rest ((ts.map (fun t => [groupLine t])).reverse ++ S) acc := by
  induction ts with
  | nil =>
    intro rest S acc
    simp
  | cons t ts2 ih =>
    intro rest S acc
    have ht := h t (List.mem_cons_self t ts2)
    simp only [List.map_cons, List.cons_append]
    rw [lexerGo_group t ht, ih (fun x hx => h x (List.mem_cons_of_mem t hx))]
    simp [List.append_assoc]

/-! ### Claims C2, C3, C8: the lexer -/

/-- C2: on every well-formed input in which every GROUP line has a matching
END_GROUP line with an equal tag, the lexer emits exactly one raw group per
matched pair, in closing order (inner groups before their enclosing group),
and never emits an unclosed group; and a bare `END` line terminates the
output immediately, discarding (not emitting) any still-open groups,
whatever follows. -/
theorem claim_C2_lexer_balanced :
    (∀ ds : DocList, WFListB ds = true → topGroupsB ds = true →
      lexerRun (renderList ds) = .ok (emittedListD ds)) ∧
    (∀ (ds : DocList) (ts trailing : List String),
      WFListB ds = true → topGroupsB ds = true →
      (∀ t ∈ ts, validTagB t = true) →
      lexerRun (renderList ds ++ (ts.map groupLine ++ ("END" :: trailing)))
        = .ok (emittedListD ds)) := by
  constructor
  · intro ds h1 h2
    show lexerGo (renderList ds) [] [] = _
    have h3 := lexerGo_top ds h1 h2 [] [] []
    rw [List.append_nil] at h3
    rw [h3]
    simp [lexerGo]
  · intro ds ts trailing h1 h2 h3
    show lexerGo (renderList ds ++ (ts.map groupLine ++ ("END" :: trailing))) [] [] = _
    rw [lexerGo_top ds h1 h2, lexerGo_opens ts h3, lexerGo_END]
    simp

/-- Witness for C2 at concrete inputs: the two-group fixture used by the
repository's own lexer test, and an `END`-terminated input with one group
left open and discarded. -/
theorem claim_C2_witness :
    lexerRun ["GROUP = T1", "ATTR1 = 1", "END_GROUP = T1"] = .ok [["GROUP = T1", "ATTR1 = 1"]]
    ∧ lexerRun ["GROUP = T1", "ATTR1 = 1", "END_GROUP = T1", "GROUP = T2", "END", "junk"]
        = .ok [["GROUP = T1", "ATTR1 = 1"]] := by
  constructor
  · exact claim_C2_lexer_balanced.1
      (DocList.cons (Doc.group "T1" (DocList.cons (Doc.content "ATTR1 = 1") DocList.nil))
        DocList.nil)
      (by decide) (by decide)
  · exact claim_C2_lexer_balanced.2
      (DocList.cons (Doc.group "T1" (DocList.cons (Doc.content "ATTR1 = 1") DocList.nil))
        DocList.nil)
      ["T2"] ["junk"] (by decide) (by decide) (by decide)

/-- C3: an END_GROUP line whose tag differs from the start tag of the
innermost open group makes lexing fail with the `ParsingError`
"Diverging start and end tag" -- after any balanced prefix, under any
enclosing open groups, and whatever follows the mismatch. -/
theorem claim_C3_lexer_mismatch (ds : DocList) (ts : List String) (body : DocList)
    (a b : String) (rest : List String)
    (h1 : WFListB ds = true) (h2 : topGroupsB ds = true)
    (hts : ∀ t ∈ ts, validTagB t = true) (hbody : WFListB body = true)
    (ha : validTagB a = true) (hb : validTagB b = true) (hne : a ≠ b) :
    lexerRun (renderList ds
        ++ (ts.map groupLine ++ (groupLine a :: (renderList body ++ (endLine b :: rest)))))
      = .error (.parsingError ("Diverging start and end tag: " ++ a ++ " != " ++ b)) := by
  show lexerGo _ [] [] = _
  rw [lexerGo_top ds h1 h2, lexerGo_opens ts hts, lexerGo_group a ha, lexerGo_list body hbody]
  rw [show ([groupLine a] ++ directLines body) = groupLine a :: directLines body by simp]
  exact lexerGo_mismatch a b ha hb hne rest (directLines body) _ _

/-- Witness for C3 at a concrete mismatching input: inside the still-open
group `T`, the innermost group `A` is closed as `END_GROUP = B`. -/
theorem claim_C3_witness :
    lexerRun ["GROUP = T", "GROUP = A", "X = 1", "END_GROUP = B", "junk"]
      = .error (.parsingError "Diverging start and end tag: A != B") :=
  claim_C3_lexer_mismatch DocList.nil ["T"]
    (DocList.cons (Doc.content "X = 1") DocList.nil) "A" "B" ["junk"]
    (by decide) (by decide) (by decide) (by decide) (by decide) (by decide) (by decide)

/-- C8 counterexample: a non-marker line with no open group does make the
lexer fail fast, but with the builtin `IndexError` from `groups[-1]` on an
empty list, not with the library's `ParsingError` as the claim states. -/
theorem claim_C8_counterexample :
    lexerRun ["foo"] = .error .indexError
    ∧ isParsingErrorResult (lexerRun ["foo"]) = false := by
  constructor
  · decide
  · decide

/-- C8 (amended): a line that is not a GROUP marker, not an END_GROUP marker
and not the END sentinel, appearing when no group is open, makes the lexer
fail fast -- with the builtin `IndexError` (from `groups[-1]` on the empty
stack), not the library's `ParsingError`. -/
theorem claim_C8_amended_indexerror (ds : DocList) (l : String) (rest : List String)
    (h1 : WFListB ds = true) (h2 : topGroupsB ds = true) (hl : plainLineB l = true) :
    lexerRun (renderList ds ++ (l :: rest)) = .error .indexError := by
  show lexerGo _ [] [] = _
  rw [lexerGo_top ds h1 h2]
  exact lexerGo_plain_empty l hl rest _

/-- Witness for the amended C8: after one balanced group, a stray plain line
hits the empty stack. -/
theorem claim_C8_witness :
    lexerRun ["GROUP = X", "END_GROUP = X", "foo", "BAR = 1"] = .error .indexError :=
  claim_C8_amended_indexerror
    (DocList.cons (Doc.group "X" DocList.nil) DocList.nil) "foo" ["BAR = 1"]
    (by decide) (by decide) (by decide)

/-! ### Claim C4: the value caster -/

/-- C4 counterexample: on a token wrapped in two pairs of double quotes the
caster strips every surrounding quote (Python `str.strip` removes all
leading and trailing occurrences), not just one pair as the claim states. -/
theorem claim_C4_counterexample :
    cast_to_best "\"\"abc\"\"" = Value.str "abc"
    ∧ Value.str "abc" ≠ Value.str "\"abc\"" := by
  constructor
  · decide
  · decide

/-- C4 (amended): the caster is total and tries an integer parse first, then
a float parse, then falls back to the string with all leading and trailing
double-quote characters stripped (not just one pair); on the spec's examples
it yields int 1, float 1.0, the string abc, and the string abc with the
quotes removed. -/
theorem claim_C4_amended_caster :
    (∀ (s : String) (n : Int), pyParseInt s = some n → cast_to_best s = Value.int n)
    ∧ (∀ (s : String) (f : PyFloat), pyParseInt s = none → pyParseFloat s = some f →
        cast_to_best s = Value.float f)
    ∧ (∀ s : String, pyParseInt s = none → pyParseFloat s = none →
        cast_to_best s = Value.str (pyStripChar '"' s))
    ∧ cast_to_best "1" = Value.int 1
    ∧ cast_to_best "1.0" = Value.float (PyFloat.finite ⟨1, 0⟩)
    ∧ cast_to_best "abc" = Value.str "abc"
    ∧ cast_to_best "\"abc\"" = Value.str "abc" := by
  refine ⟨?_, ?_, ?_, by decide, by decide, by decide, by decide⟩
  · intro s n h
    simp [cast_to_best, h]
  · intro s f h1 h2
    simp [cast_to_best, h1, h2]
  · intro s h1 h2
    simp [cast_to_best, h1, h2]

/-- Witness for the amended C4 at the concrete token `7`. -/
theorem claim_C4_witness :
    pyParseInt "7" = some 7 ∧ cast_to_best "7" = Value.int 7 :=
  ⟨by decide, claim_C4_amended_caster.1 "7" 7 (by decide)⟩

/-! ### Claim C5: the parser -/

theorem parserGo_ok_eq (gs : List RawGroup) :
    ∀ (acc rs : List Record), parserGo gs acc = .ok rs → rs = acc.reverse ++ qualifying gs := by
  induction gs with
  | nil =>
    intro acc rs h
    simp only [parserGo] at h
    by_cases he : acc.isEmpty
    · rw [if_pos he] at h
      cases h
    · rw [if_neg he] at h
      cases h
      simp [qualifying]
  | cons g gs2 ih =>
    intro acc rs h
    simp only [parserGo] at h
    by_cases hq : 1 < (extractPairs g).length
    · rw [if_pos hq] at h
      cases hv : validFieldsB ((extractPairs g).map Prod.fst)
      · simp only [mkRecord, hv, Bool.false_eq_true, if_false] at h
        cases h
      · simp only [mkRecord, hv, if_true] at h
        rw [ih _ _ h]
        simp [qualifying, hq, List.append_assoc]
    · rw [if_neg hq] at h
      rw [ih _ _ h]
      simp [qualifying, hq]

theorem qualifying_nil_of_small (gs : List RawGroup) :
    (∀ g ∈ gs, (extractPairs g).length ≤ 1) → qualifying gs = [] := by
  induction gs with
  | nil =>
    intro
    rfl
  | cons g gs2 ih =>
    intro h
    have hg : ¬1 < (extractPairs g).length := Nat.not_lt.mpr (h g (List.mem_cons_self g gs2))
    simp [qualifying, hg, ih (fun x hx => h x (List.mem_cons_of_mem g hx))]

theorem parserGo_small (gs : List RawGroup) :
    ∀ acc, qualifying gs = [] →
      parserGo gs acc
        = if acc.isEmpty then .error (.parsingError "Empty metadata file")
          else .ok acc.reverse := by
  induction gs with
  | nil =>
    intro acc _
    simp [parserGo]
  | cons g gs2 ih =>
    intro acc h
    have hq : ¬1 < (extractPairs g).length := by
      intro hq
      simp [qualifying, hq] at h
    simp only [parserGo, if_neg hq]
    exact ih acc (by simpa [qualifying, hq] using h)

theorem mem_qualifying (gs : List RawGroup) (r : Record) :
    r ∈ qualifying gs → 1 < r.length ∧ ∃ g ∈ gs, r = extractPairs g := by
  induction gs with
  | nil =>
    intro h
    simp [qualifying] at h
  | cons g gs2 ih =>
    intro h
    by_cases hq : 1 < (extractPairs g).length
    · rw [qualifying, if_pos hq] at h
      rcases List.mem_cons.mp h with h1 | h2
      · subst h1
        exact ⟨hq, g, List.mem_cons_self g gs2, rfl⟩
      · obtain ⟨hlen, g2, hg2, hr⟩ := ih h2
        exact ⟨hlen, g2, List.mem_cons_of_mem g hg2, hr⟩
    · rw [qualifying, if_neg hq] at h
      obtain ⟨hlen, g2, hg2, hr⟩ := ih h
      exact ⟨hlen, g2, List.mem_cons_of_mem g hg2, hr⟩

theorem extractPairs_skip (l : String) (hl : reKeyValue l = none) (pre : List String) :
    ∀ post : List String, extractPairs (pre ++ l :: post) = extractPairs (pre ++ post) := by
  induction pre with
  | nil =>
    intro post
    simp [extractPairs, hl]
  | cons p pre2 ih =>
    intro post
    simp only [List.cons_append, extractPairs]
    cases hp : reKeyValue p with
    | none => exact ih post
    | some kv =>
      obtain ⟨k, v⟩ := kv
      exact congrArg (fun x => (k, cast_to_best v) :: x) (ih post)

/-- C5: on any group sequence on which the parser succeeds, each emitted
record comes from a group that yielded more than one key/value pair and has
more than one pair itself, and at least one record was emitted; if every
group yields at most one pair (in particular a group holding only the GROUP
line), the parser fails with the `ParsingError` "Empty metadata file"; and a
line that does not match the key = value pattern is skipped without
effect. -/
theorem claim_C5_parser_records :
    (∀ (gs : List RawGroup) (rs : List Record), parserRun gs = .ok rs →
      rs ≠ [] ∧ ∀ r ∈ rs, 1 < r.length ∧ ∃ g ∈ gs, r = extractPairs g)
    ∧ (∀ gs : List RawGroup, (∀ g ∈ gs, (extractPairs g).length ≤ 1) →
        parserRun gs = .error (.parsingError "Empty metadata file"))
    ∧ (∀ (l : String) (pre post : List String), reKeyValue l = none →
        extractPairs (pre ++ l :: post) = extractPairs (pre ++ post)) := by
  refine ⟨?_, ?_, ?_⟩
  · intro gs rs h
    have heq := parserGo_ok_eq gs [] rs h
    simp only [List.reverse_nil, List.nil_append] at heq
    constructor
    · intro hnil
      rw [hnil] at heq
      have hsm := parserGo_small gs [] heq.symm
      have h2 : parserGo gs [] = .ok rs := h
      rw [h2, hnil] at hsm
      simp at hsm
    · intro r hr
      exact mem_qualifying gs r (heq ▸ hr)
  · intro gs h
    have := parserGo_small gs [] (qualifying_nil_of_small gs h)
    simpa [parserRun] using this
  · intro l pre post hl
    exact extractPairs_skip l hl pre post

/-- Witness for C5: the GROUP-only group is dropped and yields the empty
metadata error, and a two-pair group parses to a nonempty record list. -/
theorem claim_C5_witness :
    parserRun [["GROUP = X"]] = .error (.parsingError "Empty metadata file")
    ∧ ([[("GROUP", Value.str "X"), ("A", Value.int 1)]] : List Record) ≠ [] :=
  ⟨claim_C5_parser_records.2.1 [["GROUP = X"]] (by decide),
   (claim_C5_parser_records.1 [["GROUP = X", "A = 1"]]
      [[("GROUP", Value.str "X"), ("A", Value.int 1)]] (by decide)).1⟩

/-! ### Claim C6: iter_group -/

/-- C6 counterexample: on a store parsed from a one-group file,
`iter_group` yields the `GROUP` key along with the other pairs -- the
namedtuple's `_asdict()` contains every field, so the claimed exclusion of
the `GROUP` key does not happen. -/
theorem claim_C6_counterexample :
    ((readPipeline ["GROUP = X", "A = 1", "END_GROUP = X", "END"]).bind buildStore).bind
        (fun st => iter_group st "X")
      = .ok [("GROUP", Value.str "X"), ("A", Value.int 1)]
    ∧ [("GROUP", Value.str "X"), ("A", Value.int 1)] ≠ [("A", Value.int 1)] := by
  constructor
  · decide
  · decide

/-- C6 (amended): for a group present in the store (case-insensitive lookup)
`iter_group` yields all of the record's pairs, including the `GROUP` key
itself; for a group absent from the store it fails with `GroupError` --
except for the anomalous name whose uppercase form is `_OPENER`, which hits
the class-level testing hook and fails with `AttributeError` instead. -/
theorem claim_C6_amended_iter_group :
    (∀ (st : Store) (group : String) (pr : String × Record),
      st.find? (fun p => decide (p.1 = pyUpper group)) = some pr →
      iter_group st group = .ok pr.2)
    ∧ (∀ (st : Store) (group : String),
        st.find? (fun p => decide (p.1 = pyUpper group)) = none →
        pyUpper group ≠ "_OPENER" →
        iter_group st group
          = .error (.groupError ("Not possible to iterate over non existing group: " ++ group)))
    ∧ (∀ (st : Store) (group : String),
        st.find? (fun p => decide (p.1 = pyUpper group)) = none →
        pyUpper group = "_OPENER" →
        iter_group st group = .error .attributeError) := by
  refine ⟨?_, ?_, ?_⟩
  · intro st group pr h
    simp [iter_group, metaGet, storeGetattr, h]
  · intro st group h hne
    simp [iter_group, metaGet, storeGetattr, h, hne]
  · intro st group h heq
    rw [heq] at h
    simp [iter_group, metaGet, storeGetattr, heq, h]

/-- Witness for the amended C6 at a concrete store: present group found
case-insensitively with its GROUP pair included, missing group raising
`GroupError`, and the `_opener` anomaly raising `AttributeError`. -/
theorem claim_C6_witness :
    iter_group [("X", [("GROUP", Value.str "X"), ("A", Value.int 1)])] "x"
      = .ok [("GROUP", Value.str "X"), ("A", Value.int 1)]
    ∧ iter_group [] "foo"
      = .error (.groupError "Not possible to iterate over non existing group: foo")
    ∧ iter_group [] "_opener" = .error .attributeError :=
  ⟨claim_C6_amended_iter_group.1 [("X", [("GROUP", Value.str "X"), ("A", Value.int 1)])] "x"
      ("X", [("GROUP", Value.str "X"), ("A", Value.int 1)]) (by decide),
   claim_C6_amended_iter_group.2.1 [] "foo" (by decide) (by decide),
   claim_C6_amended_iter_group.2.2 [] "_opener" (by decide) (by decide)⟩

/-! ### Claim C7: metadata_sniffer -/

theorem find?_append_none {α : Type} (p : α → Bool) :
    ∀ pre : List α, (∀ n ∈ pre, p n = false) → ∀ rest : List α,
      (pre ++ rest).find? p = rest.find? p := by
  intro pre
  induction pre with
  | nil =>
    intro _ rest
    rfl
  | cons a pre2 ih =>
    intro h rest
    have ha := h a (List.mem_cons_self a pre2)
    simp only [List.cons_append, List.find?_cons, ha]
    exact ih (fun n hn => h n (List.mem_cons_of_mem a hn)) rest

/-- C7 counterexample: with the default template, matching is
case-sensitive -- `metadata_sniffer` compiles the pattern without
`re.IGNORECASE`, so the lowercase `scene_mtl.txt` is not found while
`scene_MTL.txt` is. -/
theorem claim_C7_counterexample :
    metadata_sniffer ["scene_mtl.txt"] matchDefaultTpl
      = .error (.metadataFileError "Missing Landsat metadata file in ['scene_mtl.txt']")
    ∧ metadata_sniffer ["scene_MTL.txt"] matchDefaultTpl = .ok "scene_MTL.txt" := by
  constructor
  · decide
  · decide

/-- C7 (amended): the sniffer returns the base name of the first entry in
listing order whose base name matches the compiled template, raises
`MetadataFileError` when nothing matches, and in particular returns
`landsat_mtl.txt` on the spec's example; but the default `MTL.txt` template
matches case-sensitively (no IGNORECASE flag), not case-insensitively. -/
theorem claim_C7_amended_sniffer :
    (∀ (pre : List String) (m : String) (post : List String) (tpl : String → Bool),
      (∀ n ∈ pre, tpl (basename n) = false) → tpl (basename m) = true →
      metadata_sniffer (pre ++ m :: post) tpl = .ok (basename m))
    ∧ (∀ (names : List String) (tpl : String → Bool),
        (∀ n ∈ names, tpl (basename n) = false) →
        metadata_sniffer names tpl
          = .error (.metadataFileError
              ("Missing Landsat metadata file in " ++ pyReprStrList names)))
    ∧ metadata_sniffer ["foo", "bar", "foo/bar/landsat_mtl.txt"] matchMtlLowerTpl
        = .ok "landsat_mtl.txt"
    ∧ matchDefaultTpl "scene_MTL.txt" = true
    ∧ matchDefaultTpl "scene_mtl.txt" = false := by
  refine ⟨?_, ?_, by decide, by decide, by decide⟩
  · intro pre m post tpl hpre hm
    unfold metadata_sniffer
    rw [find?_append_none (fun n => tpl (basename n)) pre hpre (m :: post)]
    simp [List.find?_cons, hm]
  · intro names tpl h
    unfold metadata_sniffer
    rw [List.find?_eq_none.mpr (fun n hn => by simp [h n hn])]

/-- Witness for the amended C7: the spec's own sniffer example, and a miss
raising `MetadataFileError`. -/
theorem claim_C7_witness :
    metadata_sniffer (["foo", "bar"] ++ "foo/bar/landsat_mtl.txt" :: []) matchMtlLowerTpl
      = .ok (basename "foo/bar/landsat_mtl.txt")
    ∧ metadata_sniffer ["a"] matchDefaultTpl
      = .error (.metadataFileError "Missing Landsat metadata file in ['a']") :=
  ⟨claim_C7_amended_sniffer.1 ["foo", "bar"] "foo/bar/landsat_mtl.txt" [] matchMtlLowerTpl
      (by decide) (by decide),
   claim_C7_amended_sniffer.2.1 ["a"] matchDefaultTpl (by decide)⟩

/-! ### Claim C1: end-to-end band resolution -/

/-- C1, evaluated at the claim's own scenario: the resolution pipeline over
a directory with `scene_MTL.txt` (LANDSAT_8 / OLI_TIRS,
`FILE_NAME_BAND_4 = "scene_B4.TIF"`) succeeds, but resolving "red" raises a
`KeyError` instead of returning `scene_B4.TIF`: the constructors never call
`_load`, so `_bands` stays empty, and independently the
`LANDSAT_8_OLI_TIRS` table maps "red" to the one-character string " "
(its code string is zipped without `.split()`), so even after `_load` the
translated lookup still raises `KeyError(' ')` while the direct code "4"
resolves fine. -/
theorem claim_C1_band_resolution_failing :
    sceneArchive.bind (fun a => a.getitem "red") = .error (.keyError " ")
    ∧ sceneArchive.map (fun a => a.bands) = .ok []
    ∧ (sceneArchive.bind (fun a => a.loadBands)).map (fun a => a.bands)
        = .ok [("4", Value.str "scene_B4.TIF")]
    ∧ (sceneArchive.bind (fun a => a.loadBands)).bind (fun a => a.getitem "4")
        = .ok (Value.str "scene_B4.TIF")
    ∧ (sceneArchive.bind (fun a => a.loadBands)).bind (fun a => a.getitem "red")
        = .error (.keyError " ")
    ∧ sceneArchive.map (fun a => a.mapping.find? (fun p => decide (p.1 = "red")))
        = .ok (some ("red", " ")) := by
  refine ⟨by decide, by decide, by decide, by decide, by decide, by decide⟩

/-! ### Claim C10: the archive opener -/

/-- C10, evaluated: errors raised inside the `archive_opener` scope do not
propagate.  A sniffer miss inside a zip scope is suppressed by the bare
`except: pass`, and the caller then crashes on the unbound `meta_file`
local (`UnboundLocalError`), not on the original `MetadataFileError`; an
unrecognized container raises `UnboundLocalError` out of the opener's
`finally` block with no handle ever opened or closed; a swallowed
extraction error lets the read continue as if extraction had succeeded;
only the success path both closes the handle and returns normally. -/
theorem claim_C10_opener_behaviour :
    archive_read_locate .zipK ["foo.TIF"] matchDefaultTpl true
      = (.error .unboundLocalError, true, true)
    ∧ archive_read_locate .neitherK ["scene_MTL.txt"] matchDefaultTpl true
      = (.error .unboundLocalError, false, false)
    ∧ archive_read_locate .zipK ["scene_MTL.txt"] matchDefaultTpl false
      = (.ok "scene_MTL.txt", true, true)
    ∧ archive_read_locate .tarK ["scene_MTL.txt"] matchDefaultTpl true
      = (.ok "scene_MTL.txt", true, true) := by
  refine ⟨by decide, by decide, by decide, by decide⟩

/-! ### Claim C9: record shape through the full pipeline

The chain: every group the lexer yields starts with its GROUP line
(`lexerGo_heads`); on such a line the parser regex either captures exactly
the key `GROUP` with the tag as value, or captures a longer key containing
a whitespace character, which `namedtuple` then rejects
(`reKeyValue_groupHead`); so on every run where the pipeline succeeds, each
record opens with the pair `(GROUP, cast_to_best tag)`. -/

theorem ws_enum (c : Char) (hc : c.isWhitespace = true) :
    c = ' ' ∨ c = '\t' ∨ c = '\r' ∨ c = '\n' := by
  have h2 := hc
  simp only [Char.isWhitespace, Bool.or_eq_true, decide_eq_true_eq] at h2
  tauto

theorem isIdentChar_false_of_ws (c : Char) (hc : c.isWhitespace = true) :
    isIdentChar c = false := by
  rcases ws_enum c hc with rfl | rfl | rfl | rfl <;> decide

theorem identStart_false_of_ws (c : Char) (hc : c.isWhitespace = true) :
    (c.isAlpha || c = '_') = false := by
  rcases ws_enum c hc with rfl | rfl | rfl | rfl <;> decide

theorem pyIsIdentifier_false_of_ws (s : String) (c : Char) (hc : c.isWhitespace = true)
    (hmem : c ∈ s.data) : pyIsIdentifier s = false := by
  cases hdata : s.data with
  | nil =>
    rw [hdata] at hmem
    cases hmem
  | cons c0 cs =>
    rw [hdata] at hmem
    simp only [pyIsIdentifier, hdata]
    rcases List.mem_cons.mp hmem with rfl | hmem2
    · rw [identStart_false_of_ws c hc]
      simp
    · have h2 : isIdentChar c = false := isIdentChar_false_of_ws c hc
      cases hall : cs.all isIdentChar
      · simp
      · have := List.all_eq_true.mp hall c hmem2
        rw [h2] at this
        cases this

theorem validFieldName_false_of_ws (s : String) (c : Char) (hc : c.isWhitespace = true)
    (hmem : c ∈ s.data) : validFieldName s = false := by
  unfold validFieldName
  rw [pyIsIdentifier_false_of_ws s c hc hmem]
  simp

theorem matchGroup_inv (l : List Char) (t : String) (hm : matchGroupChars l = some t) :
    ∃ a b rest, l = 'G' :: 'R' :: 'O' :: 'U' :: 'P' :: a :: '=' :: b :: rest
      ∧ (a.isWhitespace && b.isWhitespace) = true
      ∧ rest.takeWhile (fun c => c ≠ '\n') = t.data
      ∧ rest.takeWhile (fun c => c ≠ '\n') ≠ [] := by
  unfold matchGroupChars at hm
  split at hm
  next a b rest =>
    by_cases hw : (a.isWhitespace && b.isWhitespace) = true
    · rw [if_pos hw] at hm
      by_cases he : (rest.takeWhile (fun c => c ≠ '\n')).isEmpty = true
      · rw [if_pos he] at hm
        cases hm
      · rw [if_neg he] at hm
        injection hm with hm2
        refine ⟨a, b, rest, rfl, hw, ?_, ?_⟩
        · rw [← hm2]
        · intro hnil
          rw [hnil] at he
          exact he rfl
    · rw [if_neg hw] at hm
      cases hm
  next =>
    cases hm

theorem kvSplitAt_head5 (a b : Char) (rest : List Char)
    (hw : (a.isWhitespace && b.isWhitespace) = true)
    (hne : rest.takeWhile (fun c => c ≠ '\n') ≠ []) :
    kvSplitAt ('G' :: 'R' :: 'O' :: 'U' :: 'P' :: a :: '=' :: b :: rest) 5
      = some ("GROUP".data, rest.takeWhile (fun c => c ≠ '\n')) := by
  obtain ⟨hws1, hws2⟩ := Bool.and_eq_true _ _ |>.mp hw
  obtain ⟨r0, rr, rfl, hr0⟩ : ∃ r0 rr, rest = r0 :: rr ∧ r0 ≠ '\n' := by
    cases rest with
    | nil => exact absurd rfl hne
    | cons r0 rr =>
      refine ⟨r0, rr, rfl, ?_⟩
      intro h
      rw [List.takeWhile_cons] at hne
      simp [h] at hne
  show (if (a.isWhitespace && b.isWhitespace
        && !(('G' :: 'R' :: 'O' :: 'U' :: 'P' :: a :: '=' :: b :: r0 :: rr).take 5).isEmpty
        && !(('G' :: 'R' :: 'O' :: 'U' :: 'P' :: a :: '=' :: b :: r0 :: rr).take 5).contains '\n'
        && ((r0 :: rr).headD '\n' != '\n')) = true then
      some (('G' :: 'R' :: 'O' :: 'U' :: 'P' :: a :: '=' :: b :: r0 :: rr).take 5,
        (r0 :: rr).takeWhile (fun c => c ≠ '\n'))
    else none) = some ("GROUP".data, (r0 :: rr).takeWhile (fun c => c ≠ '\n'))
  rw [if_pos (by simp [hws1, hws2, bne_iff_ne, hr0])]
  rfl

theorem kvSplitAt_some_key (l : List Char) (j : ℕ) (kv : List Char × List Char)
    (h : kvSplitAt l j = some kv) : kv.1 = l.take j := by
  unfold kvSplitAt at h
  split at h
  next a b rest heq =>
    by_cases hcond : (a.isWhitespace && b.isWhitespace && !(l.take j).isEmpty
        && !(l.take j).contains '\n' && (rest.headD '\n' != '\n')) = true
    · rw [if_pos hcond] at h
      injection h with h2
      rw [← h2]
    · rw [if_neg hcond] at h
      cases h
  next =>
    cases h

theorem kvSplitAt_head_ws (l : List Char) (j : ℕ) (kv : List Char × List Char)
    (h : kvSplitAt l j = some kv) :
    ∃ c cs, l.drop j = c :: cs ∧ c.isWhitespace = true := by
  unfold kvSplitAt at h
  split at h
  next a b rest heq =>
    by_cases hcond : (a.isWhitespace && b.isWhitespace && !(l.take j).isEmpty
        && !(l.take j).contains '\n' && (rest.headD '\n' != '\n')) = true
    · have hws : a.isWhitespace = true := by
        have h2 := hcond
        simp only [Bool.and_eq_true] at h2
        exact h2.1.1.1.1
      exact ⟨a, '=' :: b :: rest, heq, hws⟩
    · rw [if_neg hcond] at h
      cases h
  next =>
    cases h

theorem take_six_mem (a : Char) (tail : List Char) (k : ℕ) :
    a ∈ ('G' :: 'R' :: 'O' :: 'U' :: 'P' :: a :: tail).take (6 + k) := by
  rw [show 6 + k = (5 + k) + 1 from by omega, List.take_succ_cons,
    show 5 + k = (4 + k) + 1 from by omega, List.take_succ_cons,
    show 4 + k = (3 + k) + 1 from by omega, List.take_succ_cons,
    show 3 + k = (2 + k) + 1 from by omega, List.take_succ_cons,
    show 2 + k = (1 + k) + 1 from by omega, List.take_succ_cons,
    show 1 + k = k + 1 from by omega, List.take_succ_cons]
  simp

theorem findSome?_isSome_of_mem {α β : Type} (L : List α) (f : α → Option β) (a : α)
    (ha : a ∈ L) (h : (f a).isSome = true) : (L.findSome? f).isSome = true := by
  induction L with
  | nil => cases ha
  | cons x xs ih =>
    rw [List.findSome?_cons]
    cases hfx : f x with
    | some b => simp
    | none =>
      rcases List.mem_cons.mp ha with rfl | hmem
      · rw [hfx] at h
        cases h
      · exact ih hmem

/-- For a line whose characters match the GROUP marker, the parser regex
either captures key `GROUP` with the tag as value, or captures a longer key
containing the marker's whitespace, which is not a valid field name. -/
theorem reKeyValue_groupHead (hstr t : String) (hm : matchGroupLine hstr = some t) :
    reKeyValue hstr = some ("GROUP", t)
    ∨ ∃ k v : String, reKeyValue hstr = some (k, v) ∧ validFieldName k = false := by
  obtain ⟨a, b, rest, hdata, hw, htw, htwne⟩ := matchGroup_inv hstr.data t hm
  have hws1 : a.isWhitespace = true := (Bool.and_eq_true _ _ |>.mp hw).1
  have h5 : kvSplitAt hstr.data 5 = some ("GROUP".data, rest.takeWhile (fun c => c ≠ '\n')) := by
    rw [hdata]
    exact kvSplitAt_head5 a b rest hw htwne
  have hlen : 5 < hstr.data.length + 1 := by
    rw [hdata]
    simp only [List.length_cons]
    omega
  have hmem5 : (5 : ℕ) ∈ (List.range (hstr.data.length + 1)).reverse := by
    rw [List.mem_reverse, List.mem_range]
    exact hlen
  have hsome :
      (((List.range (hstr.data.length + 1)).reverse).findSome? (kvSplitAt hstr.data)).isSome
        = true :=
    findSome?_isSome_of_mem _ _ 5 hmem5 (by rw [h5]; rfl)
  obtain ⟨kv, hkv⟩ := Option.isSome_iff_exists.mp hsome
  obtain ⟨j, hjmem, hj⟩ := List.exists_of_findSome?_eq_some hkv
  have hre : reKeyValue hstr = some (⟨kv.1⟩, ⟨kv.2⟩) := by
    unfold reKeyValue
    rw [hkv]
    rfl
  have hj6 : j = 5 ∨ 6 ≤ j := by
    by_contra hcon
    push_neg at hcon
    obtain ⟨hne5, hlt6⟩ := hcon
    have hle4 : j ≤ 4 := by omega
    obtain ⟨c, cs, hdrop, hcws⟩ := kvSplitAt_head_ws hstr.data j kv hj
    rw [hdata] at hdrop
    interval_cases j
    · rw [show ('G' :: 'R' :: 'O' :: 'U' :: 'P' :: a :: '=' :: b :: rest).drop 0
          = 'G' :: ('R' :: 'O' :: 'U' :: 'P' :: a :: '=' :: b :: rest) from rfl] at hdrop
      cases hdrop
      exact absurd hcws (by decide)
    · rw [show ('G' :: 'R' :: 'O' :: 'U' :: 'P' :: a :: '=' :: b :: rest).drop 1
          = 'R' :: ('O' :: 'U' :: 'P' :: a :: '=' :: b :: rest) from rfl] at hdrop
      cases hdrop
      exact absurd hcws (by decide)
    · rw [show ('G' :: 'R' :: 'O' :: 'U' :: 'P' :: a :: '=' :: b :: rest).drop 2
          = 'O' :: ('U' :: 'P' :: a :: '=' :: b :: rest) from rfl] at hdrop
      cases hdrop
      exact absurd hcws (by decide)
    · rw [show ('G' :: 'R' :: 'O' :: 'U' :: 'P' :: a :: '=' :: b :: rest).drop 3
          = 'U' :: ('P' :: a :: '=' :: b :: rest) from rfl] at hdrop
      cases hdrop
      exact absurd hcws (by decide)
    · rw [show ('G' :: 'R' :: 'O' :: 'U' :: 'P' :: a :: '=' :: b :: rest).drop 4
          = 'P' :: (a :: '=' :: b :: rest) from rfl] at hdrop
      cases hdrop
      exact absurd hcws (by decide)
  rcases hj6 with rfl | hge
  · left
    rw [h5] at hj
    injection hj with hj2
    rw [hre, ← hj2]
    have hkey : (⟨"GROUP".data⟩ : String) = "GROUP" := string_mk_data "GROUP"
    rw [show ((⟨("GROUP".data, rest.takeWhile (fun c => c ≠ '\n')).1⟩ : String))
        = (⟨"GROUP".data⟩ : String) from rfl, hkey]
    rw [show ((⟨("GROUP".data, rest.takeWhile (fun c => c ≠ '\n')).2⟩ : String))
        = (⟨rest.takeWhile (fun c => c ≠ '\n')⟩ : String) from rfl, htw, string_mk_data]
  · right
    refine ⟨⟨kv.1⟩, ⟨kv.2⟩, hre, ?_⟩
    have hkey := kvSplitAt_some_key hstr.data j kv hj
    obtain ⟨k, rfl⟩ : ∃ k, j = 6 + k := ⟨j - 6, by omega⟩
    have hamem : a ∈ kv.1 := by
      rw [hkey, hdata]
      exact take_six_mem a ('=' :: b :: rest) k
    exact validFieldName_false_of_ws ⟨kv.1⟩ a hws1 hamem

/-- Lexer invariant: every group on the stack or already yielded starts with
a line matching the GROUP marker, so every group of a successful run does. -/
theorem lexerGo_heads (lines : List String) :
    ∀ (stack acc gs : List RawGroup),
    (∀ g ∈ stack, headGroup g) → (∀ g ∈ acc, headGroup g) →
    lexerGo lines stack acc = .ok gs → ∀ g ∈ gs, headGroup g := by
  induction lines with
  | nil =>
    intro stack acc gs hs ha h
    simp only [lexerGo] at h
    injection h with h2
    intro g hg
    exact ha g (List.mem_reverse.mp (h2 ▸ hg))
  | cons line rest ih =>
    intro stack acc gs hs ha h
    simp only [lexerGo] at h
    cases hg : matchGroupLine line with
    | some t =>
      simp only [hg] at h
      refine ih _ _ _ ?_ ha h
      intro g hgmem
      rcases List.mem_cons.mp hgmem with rfl | hmem
      · exact ⟨line, [], t, rfl, hg⟩
      · exact hs g hmem
    | none =>
      simp only [hg] at h
      cases he : matchEndGroupLine line with
      | some etag =>
        simp only [he] at h
        cases stack with
        | nil => simp at h
        | cons top stack2 =>
          cases htop : top.head? with
          | none =>
            simp [htop] at h
          | some first =>
            simp only [htop] at h
            cases hfg : matchGroupLine first with
            | none =>
              simp [hfg] at h
            | some stag =>
              simp only [hfg] at h
              by_cases heq2 : stag = etag
              · rw [if_pos heq2] at h
                refine ih stack2 (top :: acc) _
                  (fun g hg2 => hs g (List.mem_cons_of_mem top hg2)) ?_ h
                intro g hgmem
                rcases List.mem_cons.mp hgmem with rfl | hmem
                · exact hs g (List.mem_cons_self g stack2)
                · exact ha g hmem
              · rw [if_neg heq2] at h
                cases h
      | none =>
        simp only [he] at h
        by_cases hE : line = "END"
        · rw [if_pos hE] at h
          injection h with h2
          intro g hg2
          exact ha g (List.mem_reverse.mp (h2 ▸ hg2))
        · rw [if_neg hE] at h
          cases stack with
          | nil => simp at h
          | cons top stack2 =>
            simp only [] at h
            refine ih _ _ _ ?_ ha h
            intro g hgmem
            rcases List.mem_cons.mp hgmem with rfl | hmem
            · obtain ⟨h0, r0, t0, htop0, hm0⟩ := hs top (List.mem_cons_self top stack2)
              exact ⟨h0, r0 ++ [line], t0, by rw [htop0]; rfl, hm0⟩
            · exact hs g (List.mem_cons_of_mem top hmem)

/-- The records of a successful parser run (beyond the starting
accumulator) passed the namedtuple field validation. -/
theorem parserGo_ok_valid (gs : List RawGroup) :
    ∀ (acc rs : List Record), parserGo gs acc = .ok rs →
      ∀ r ∈ rs, r ∈ acc ∨ validFieldsB (r.map Prod.fst) = true := by
  induction gs with
  | nil =>
    intro acc rs h r hr
    simp only [parserGo] at h
    by_cases he : acc.isEmpty
    · rw [if_pos he] at h
      cases h
    · rw [if_neg he] at h
      injection h with h2
      left
      exact List.mem_reverse.mp (h2 ▸ hr)
  | cons g gs2 ih =>
    intro acc rs h r hr
    simp only [parserGo] at h
    by_cases hq : 1 < (extractPairs g).length
    · rw [if_pos hq] at h
      cases hv : validFieldsB ((extractPairs g).map Prod.fst)
      · simp only [mkRecord, hv, Bool.false_eq_true, if_false] at h
        cases h
      · simp only [mkRecord, hv, if_true] at h
        rcases ih _ _ h r hr with hacc | hval
        · rcases List.mem_cons.mp hacc with rfl | h2
          · right
            exact hv
          · left
            exact h2
        · right
          exact hval
    · rw [if_neg hq] at h
      exact ih _ _ h r hr

/-- C9 counterexample: the full pipeline succeeds on a group whose tag is
the numeral `42`; the record's GROUP value is then the int 42, which does
not equal the record's group name -- the tag string `42` of its opening
line -- because the value caster has retyped it. -/
theorem claim_C9_counterexample :
    readPipeline ["GROUP = 42", "A = 1", "B = 2", "END_GROUP = 42", "END"]
      = .ok [[("GROUP", Value.int 42), ("A", Value.int 1), ("B", Value.int 2)]]
    ∧ Value.int 42 ≠ Value.str "42" := by
  constructor
  · decide
  · decide

/-- C9 (amended): on every successful run of the full pipeline (scanner,
lexer, parser), the records are exactly the extractions of the qualifying
raw groups the lexer yielded on that very input, and each record has more
than one key, comes from a span whose opening line matches
`GROUP = <tag>`, and opens with the pair `(GROUP, cast_to_best tag)` for
the tag of that opening line -- equal to the tag itself only when the
caster leaves it a string. -/
theorem claim_C9_amended_record_shape (content : List String) (rs : List Record)
    (h : readPipeline content = .ok rs) :
    ∃ gs : List RawGroup, lexerRun (scanner content) = .ok gs ∧ rs = qualifying gs ∧
      ∀ r ∈ rs, 1 < r.length ∧
        ∃ (g : RawGroup) (hd : String) (body : List String) (tag : String),
          g ∈ gs ∧ g = hd :: body ∧ matchGroupLine hd = some tag ∧
          r = extractPairs g ∧ r.head? = some ("GROUP", cast_to_best tag) := by
  obtain ⟨gs, hlex, hparse⟩ :
      ∃ gs, lexerRun (scanner content) = .ok gs ∧ parserRun gs = .ok rs := by
    unfold readPipeline at h
    cases hl : lexerRun (scanner content) with
    | error e =>
      rw [hl] at h
      simp [Except.bind] at h
    | ok gs =>
      rw [hl] at h
      refine ⟨gs, rfl, ?_⟩
      simpa [Except.bind] using h
  have hheads := lexerGo_heads (scanner content) [] [] gs (by simp) (by simp) hlex
  have heq := parserGo_ok_eq gs [] rs hparse
  simp only [List.reverse_nil, List.nil_append] at heq
  refine ⟨gs, hlex, heq, ?_⟩
  intro r hr
  obtain ⟨hlen, g, hgmem, hre⟩ := mem_qualifying gs r (heq ▸ hr)
  have hval : validFieldsB (r.map Prod.fst) = true := by
    rcases parserGo_ok_valid gs [] rs hparse r hr with hacc | hv
    · cases hacc
    · exact hv
  refine ⟨hlen, ?_⟩
  obtain ⟨h0, rest0, t0, hgshape, hm0⟩ := hheads g hgmem
  rcases reKeyValue_groupHead h0 t0 hm0 with hkv | ⟨k, v, hkv, hbad⟩
  · refine ⟨g, h0, rest0, t0, hgmem, hgshape, hm0, hre, ?_⟩
    rw [hre, hgshape]
    simp [extractPairs, hkv]
  · exfalso
    rw [hre, hgshape] at hval
    simp only [extractPairs, hkv, List.map_cons, validFieldsB, Bool.and_eq_true] at hval
    rw [hbad] at hval
    exact absurd hval.1.1 (by simp)

/-- Witness for the amended C9 at the numeric-tag input: the theorem
applied to the concrete run, whose single three-key record is the
extraction of its own `GROUP = 42` span and opens with
`(GROUP, cast_to_best "42")`. -/
theorem claim_C9_witness :
    ∃ gs : List RawGroup,
      lexerRun (scanner ["GROUP = 42", "A = 1", "B = 2", "END_GROUP = 42", "END"]) = .ok gs
      ∧ [[("GROUP", Value.int 42), ("A", Value.int 1), ("B", Value.int 2)]] = qualifying gs
      ∧ ∀ r ∈ [[("GROUP", Value.int 42), ("A", Value.int 1), ("B", Value.int 2)]],
          1 < r.length ∧
          ∃ (g : RawGroup) (hd : String) (body : List String) (tag : String),
            g ∈ gs ∧ g = hd :: body ∧ matchGroupLine hd = some tag ∧
            r = extractPairs g ∧ r.head? = some ("GROUP", cast_to_best tag) :=
  claim_C9_amended_record_shape ["GROUP = 42", "A = 1", "B = 2", "END_GROUP = 42", "END"]
    [[("GROUP", Value.int 42), ("A", Value.int 1), ("B", Value.int 2)]] (by decide)

end Landsat

section ConformanceChecks

/-! Concrete evaluations of the embedding, mirroring the repository's own
test fixtures and the behaviours established above. -/

open Landsat

example : cast_to_best "1" = Value.int 1 := by decide
example : cast_to_best "1.0" = Value.float (PyFloat.finite ⟨1, 0⟩) := by decide
example : cast_to_best "abc" = Value.str "abc" := by decide
example : cast_to_best "\"abc\"" = Value.str "abc" := by decide
example : cast_to_best "\"\"abc\"\"" = Value.str "abc" := by decide
example : cast_to_best "2.5" = Value.float (PyFloat.finite ⟨25, -1⟩) := by decide
example : cast_to_best "-12" = Value.int (-12) := by decide
example : cast_to_best " 1_0 " = Value.int 10 := by decide
example : cast_to_best "1_" = Value.str "1_" := by decide
example : cast_to_best "inf" = Value.float PyFloat.inf := by decide
example : cast_to_best "1e2" = Value.float (PyFloat.finite ⟨1, 2⟩) := by decide
example : cast_to_best "5.e1" = Value.float (PyFloat.finite ⟨5, 1⟩) := by decide
example : cast_to_best "50.0" = Value.float (PyFloat.finite ⟨5, 1⟩) := by decide
example : cast_to_best "-0.50" = Value.float (PyFloat.finite ⟨-5, -1⟩) := by decide

example : matchGroupLine "GROUP = L1_METADATA_FILE" = some "L1_METADATA_FILE" := by decide
example : matchGroupLine "END_GROUP = X" = none := by decide
example : matchGroupLine "GROUPX = 1" = none := by decide
example : matchEndGroupLine "END_GROUP = X" = some "X" := by decide
example : matchEndGroupLine "GROUP = X" = none := by decide
example : matchGroupLine "END" = none := by decide
example : matchEndGroupLine "END" = none := by decide

example : reKeyValue "A = 1" = some ("A", "1") := by decide
example : reKeyValue "A = B = C" = some ("A = B", "C") := by decide
example : reKeyValue "FOO" = none := by decide
example : reKeyValue "GROUP = X" = some ("GROUP", "X") := by decide
example : reKeyValue "A =  " = some ("A", " ") := by decide

example :
    lexerRun ["GROUP = T1", "ATTR1 = 1", "END_GROUP = T1",
              "GROUP = T2", "ATTR1 = 1", "END_GROUP = T2"]
      = .ok [["GROUP = T1", "ATTR1 = 1"], ["GROUP = T2", "ATTR1 = 1"]] := by decide

example :
    lexerRun ["GROUP = A", "GROUP = B", "X = 1", "END_GROUP = B", "Y = 2", "END_GROUP = A"]
      = .ok [["GROUP = B", "X = 1"], ["GROUP = A", "Y = 2"]] := by decide

example :
    lexerRun ["GROUP = A", "END_GROUP = B"]
      = .error (.parsingError "Diverging start and end tag: A != B") := by decide

example : lexerRun ["foo"] = .error .indexError := by decide

example : lexerRun ["GROUP = A", "X = 1", "END", "junk"] = .ok [] := by decide

example :
    parserRun [["GROUP = TEST1", "ATTR1 = 1", "ATTR2 = 2.0", "ATTR3 = \"A TEST\""]]
      = .ok [[("GROUP", Value.str "TEST1"), ("ATTR1", Value.int 1),
              ("ATTR2", Value.float (PyFloat.finite ⟨2, 0⟩)), ("ATTR3", Value.str "A TEST")]] := by
  decide

example : parserRun [["GROUP = X"]] = .error (.parsingError "Empty metadata file") := by decide

example : parserRun [["GROUP = X"], ["FOO", "BAR"], []]
    = .error (.parsingError "Empty metadata file") := by decide

example :
    readPipeline ["GROUP = X", "A = 1", "END_GROUP = X", "END"]
      = .ok [[("GROUP", Value.str "X"), ("A", Value.int 1)]] := by decide

example :
    (readPipeline ["GROUP = X", "A = 1", "END_GROUP = X", "END"]).bind buildStore
      = .ok [("X", [("GROUP", Value.str "X"), ("A", Value.int 1)])] := by decide

example :
    ((readPipeline ["GROUP = X", "A = 1", "END_GROUP = X", "END"]).bind buildStore).bind
        (fun st => iter_group st "X")
      = .ok [("GROUP", Value.str "X"), ("A", Value.int 1)] := by decide

example : iter_group [] "foo"
    = .error (.groupError "Not possible to iterate over non existing group: foo") := by decide

example : iter_group [] "_opener" = .error .attributeError := by decide

example : bandKeyMatch "FILE_NAME_BAND_4" = some "4" := by decide
example : bandKeyMatch "FILE_NAME_BAND_QUALITY" = some "QUALITY" := by decide
example : bandKeyMatch "FILE_NAME_BAND_6_VCID_1" = some "6_VCID_1" := by decide
example : bandKeyMatch "GROUP" = none := by decide
example : bandKeyMatch "file_name_band_4" = some "4" := by decide
example : bandKeyMatch "FILE_NAME_BAND__X" = none := by decide

example : basename "foo/bar/landsat_mtl.txt" = "landsat_mtl.txt" := by decide
example : matchMtlLowerTpl "landsat_mtl.txt" = true := by decide
example : matchMtlLowerTpl "foo" = false := by decide
example : matchDefaultTpl "scene_MTL.txt" = true := by decide
example : matchDefaultTpl "MTL.txt" = true := by decide
example : matchDefaultTpl "scene_mtl.txt" = false := by decide

example :
    metadata_sniffer ["foo", "bar", "foo/bar/landsat_mtl.txt"] matchMtlLowerTpl
      = .ok "landsat_mtl.txt" := by decide

example :
    metadata_sniffer ["a"] matchDefaultTpl
      = .error (.metadataFileError "Missing Landsat metadata file in ['a']") := by decide

example :
    (BAND_MAP.find? (fun p => decide (p.1 = "LANDSAT_8_OLI_TIRS"))).map
        (fun p => p.2.find? (fun q => decide (q.1 = "red")))
      = some (some ("red", " ")) := by decide

example :
    (BAND_MAP.find? (fun p => decide (p.1 = "LANDSAT_7_ETM"))).map
        (fun p => p.2.find? (fun q => decide (q.1 = "red")))
      = some (some ("red", "3")) := by decide

example :
    (directory_read "scene" ["scene_MTL.txt"]
        (fun _ => ["GROUP = PRODUCT_METADATA",
                   "SPACECRAFT_ID = \"LANDSAT_8\"",
                   "SENSOR_ID = \"OLI_TIRS\"",
                   "FILE_NAME_BAND_4 = \"scene_B4.TIF\"",
                   "END_GROUP = PRODUCT_METADATA",
                   "END"])
        matchDefaultTpl none BAND_MAP).map (fun a => a.bands)
      = .ok [] := by decide

example :
    ((directory_read "scene" ["scene_MTL.txt"]
        (fun _ => ["GROUP = PRODUCT_METADATA",
                   "SPACECRAFT_ID = \"LANDSAT_8\"",
                   "SENSOR_ID = \"OLI_TIRS\"",
                   "FILE_NAME_BAND_4 = \"scene_B4.TIF\"",
                   "END_GROUP = PRODUCT_METADATA",
                   "END"])
        matchDefaultTpl none BAND_MAP).bind (fun a => a.getitem "red"))
      = .error (.keyError " ") := by decide

example :
    ((directory_read "scene" ["scene_MTL.txt"]
        (fun _ => ["GROUP = PRODUCT_METADATA",
                   "SPACECRAFT_ID = \"LANDSAT_8\"",
                   "SENSOR_ID = \"OLI_TIRS\"",
                   "FILE_NAME_BAND_4 = \"scene_B4.TIF\"",
                   "END_GROUP = PRODUCT_METADATA",
                   "END"])
        matchDefaultTpl none BAND_MAP).bind (fun a => a.loadBands)).map (fun a => a.bands)
      = .ok [("4", Value.str "scene_B4.TIF")] := by decide

example :
    archive_read_locate .zipK ["foo.TIF"] matchDefaultTpl true
      = (.error .unboundLocalError, true, true) := by decide

example :
    archive_read_locate .neitherK ["scene_MTL.txt"] matchDefaultTpl true
      = (.error .unboundLocalError, false, false) := by decide

example :
    archive_read_locate .zipK ["scene_MTL.txt"] matchDefaultTpl false
      = (.ok "scene_MTL.txt", true, true) := by decide

example :
    archive_read_locate .tarK ["scene_MTL.txt"] matchDefaultTpl true
      = (.ok "scene_MTL.txt", true, true) := by decide

end ConformanceChecks
